import Mathlib

/-!
Shallow embedding of the `stablecoin` Anchor program
(`programs/stablecoin/src/lib.rs`) and verification of its specification.

Account keys (`Pubkey`) are modelled as natural numbers; the per-mint SPL
token state relevant to the instructions is the mint supply together with
the caller's associated token account balance.  Each instruction is a pure
function from its declared accounts and argument to `Except` of the new
account state: a transaction that fails leaves every account unchanged
(atomicity is supplied by the runtime), so an `error` result stands for a
rejected transaction with no state mutation.

Anchor evaluates the `#[account(...)]` constraints of the accounts struct
while deserializing the accounts, before the instruction handler body runs;
the embedding of `mint_tokens` therefore checks the oracle constraint of
`MintTokens` (`latest_confirmed_round.is_some`) before the handler's
`paused` check.

The source converts the oracle's scaled decimal through `f64` and computes
`(amount_fiat as f64 / oracle_price) as u64`.  Following the specification
(sections 4.2 and 9), the rate and the division are embedded as exact
rational arithmetic with truncation: `token_amount = ⌊amount_fiat / rate⌋`.
-/

namespace Stablecoin

/-- The program's error enum (`StablecoinError` in the source). -/
inductive StablecoinError
  | ProgramPaused
  | Unauthorized
  | InvalidOracleData
  | InvalidOraclePrice
  | InvalidTokenAmount
  | OracleNotInitialized
deriving DecidableEq

/-- Errors surfaced by the external SPL token program during a CPI. -/
inductive TokenError
  | InsufficientFunds
  | Overflow
deriving DecidableEq

/-- An instruction either fails with one of the program's own errors or
propagates an error of the external token program (the source forwards CPI
errors with the question-mark operator). -/
inductive TxError
  | program : StablecoinError → TxError
  | token : TokenError → TxError
deriving DecidableEq

/-- The persistent `StablecoinConfig` record. -/
structure StablecoinConfig where
  authority : Nat
  mint : Nat
  name : String
  symbol : String
  icon_uri : String
  target_currency : String
  paused : Bool
deriving DecidableEq

/-- The oracle's latest confirmed sample: a scaled decimal
`mantissa × 10 ^ (-scale)` (Switchboard's `SwitchboardDecimal`). -/
structure OracleSample where
  mantissa : Int
  scale : Nat
deriving DecidableEq

/-- The Switchboard aggregator account as read by this program: only the
presence and value of the latest confirmed round matter. -/
structure AggregatorAccountData where
  latest_confirmed_round : Option OracleSample
deriving DecidableEq

/-- SPL token state touched by an instruction: the supply of the mint that
was passed in, and the caller's associated token account balance for it. -/
structure TokenState where
  supply : Nat
  balance : Nat
deriving DecidableEq

/-- Amounts live in `u64`. -/
def U64_MOD : Nat := 2 ^ 64

/-- Modelled from the spec: conversion of the oracle's scaled fixed-point
sample to a usable rate (the Switchboard / decimal conversion chain
`get_result()?.try_into()` followed by `try_into_f64()` lives in external
dependencies, not in this repository).  The sample cannot be represented
(`none`) when its scale exceeds the decimal range or its mantissa does not
fit in 96 bits; otherwise the rate is the exact value
`mantissa / 10 ^ scale`. -/
def OracleSample.toRate (s : OracleSample) : Option ℚ :=
  if s.scale ≤ 28 ∧ s.mantissa.natAbs < 2 ^ 96 then
    some ((s.mantissa : ℚ) / (10 : ℚ) ^ s.scale)
  else
    none

/-- `(amount_fiat as f64 / oracle_price) as u64`, embedded as exact
truncated division (spec sections 4.3 and 9). -/
def tokenAmount (amount_fiat : Nat) (rate : ℚ) : Nat :=
  (⌊(amount_fiat : ℚ) / rate⌋).toNat

/-- `spl_token::mint_to`: adds `amount` to the mint supply and to the
destination balance, failing with `Overflow` when either sum leaves `u64`. -/
def mint_to (st : TokenState) (amount : Nat) : Except TxError TokenState :=
  if st.supply + amount < U64_MOD then
    if st.balance + amount < U64_MOD then
      .ok ⟨st.supply + amount, st.balance + amount⟩
    else .error (.token .Overflow)
  else .error (.token .Overflow)

/-- `spl_token::burn`: subtracts `amount` from the source balance and the
mint supply, failing with `InsufficientFunds` when either would go
negative. -/
def burn (st : TokenState) (amount : Nat) : Except TxError TokenState :=
  if amount ≤ st.balance ∧ amount ≤ st.supply then
    .ok ⟨st.supply - amount, st.balance - amount⟩
  else .error (.token .InsufficientFunds)

/-- The `initialize` instruction handler: writes the new
`StablecoinConfig` record from the supplied accounts and arguments, with
`paused = false`.  (Named `initializeConfig` in the embedding.) -/
def initializeConfig (authority mint : Nat)
    (name symbol icon_uri target_currency : String) : StablecoinConfig :=
  { authority := authority
    mint := mint
    name := name
    symbol := symbol
    icon_uri := icon_uri
    target_currency := target_currency
    paused := false }

/-- The `mint_tokens` instruction.  `mintKey` is the key of the `mint`
account passed in `MintTokens` (the handler never compares it to
`cfg.mint`); `st` is the token state of that mint and of the caller's
associated token account for it.  The oracle constraint of the accounts
struct is evaluated first, then the handler body. -/
def mint_tokens (cfg : StablecoinConfig) (mintKey : Nat)
    (oracle : AggregatorAccountData) (st : TokenState)
    (amount_fiat : Nat) : Except TxError (StablecoinConfig × TokenState) :=
  match oracle.latest_confirmed_round with
  | none => .error (.program .OracleNotInitialized)
  | some sample =>
    if cfg.paused then .error (.program .ProgramPaused)
    else
      match sample.toRate with
      | none => .error (.program .InvalidOracleData)
      | some oracle_price =>
        if 0 < oracle_price then
          let token_amount := tokenAmount amount_fiat oracle_price
          if 0 < token_amount then
            match mint_to st token_amount with
            | .ok st1 => .ok (cfg, st1)
            | .error e => .error e
          else .error (.program .InvalidTokenAmount)
        else .error (.program .InvalidOraclePrice)

/-- The `redeem_tokens` instruction: burns `token_amount` from the
caller's associated token account of the passed mint. -/
def redeem_tokens (cfg : StablecoinConfig) (mintKey : Nat)
    (st : TokenState) (token_amount : Nat) :
    Except TxError (StablecoinConfig × TokenState) :=
  if cfg.paused then .error (.program .ProgramPaused)
  else
    match burn st token_amount with
    | .ok st1 => .ok (cfg, st1)
    | .error e => .error e

/-- The `pause` instruction: requires the caller to be the stored
authority, then sets `paused := true`. -/
def pause (caller : Nat) (cfg : StablecoinConfig) :
    Except TxError StablecoinConfig :=
  if caller = cfg.authority then .ok { cfg with paused := true }
  else .error (.program .Unauthorized)

/-- The `unpause` instruction: requires the caller to be the stored
authority, then sets `paused := false`. -/
def unpause (caller : Nat) (cfg : StablecoinConfig) :
    Except TxError StablecoinConfig :=
  if caller = cfg.authority then .ok { cfg with paused := false }
  else .error (.program .Unauthorized)

/-- A concrete configuration used by the concrete witnesses: authority 1,
mint 2. -/
def cfgW : StablecoinConfig :=
  initializeConfig 1 2 "USD Coin" "USDC" "https://example/icon" "USD"

end Stablecoin

namespace Stablecoin

/-- Evaluation of the concrete sample `5 × 10 ^ (-1)`: rate `1/2`. -/
theorem toRate_5_1 : (OracleSample.mk 5 1).toRate = some (1/2 : ℚ) := by
  rw [OracleSample.toRate, if_pos]
  · norm_num
  · exact ⟨by norm_num, by norm_num⟩

/-- Evaluation of the concrete sample `100 × 10 ^ (-1)`: rate `10`. -/
theorem toRate_100_1 : (OracleSample.mk 100 1).toRate = some (10 : ℚ) := by
  rw [OracleSample.toRate, if_pos]
  · norm_num
  · exact ⟨by norm_num, by norm_num⟩

/-- Evaluation of the concrete sample `0 × 10 ^ 0`: rate `0`. -/
theorem toRate_0_0 : (OracleSample.mk 0 0).toRate = some (0 : ℚ) := by
  rw [OracleSample.toRate, if_pos]
  · norm_num
  · exact ⟨by norm_num, by norm_num⟩

/-- A sample whose scale exceeds the representable decimal range does not
convert. -/
theorem toRate_1_29 : (OracleSample.mk 1 29).toRate = none := by
  rw [OracleSample.toRate, if_neg]
  intro h
  exact absurd h.1 (by norm_num)

/-- Floor evaluation: `⌊100 / (1/2)⌋ = 200`. -/
theorem floor_100_half : ⌊((100 : Nat) : ℚ) / (1/2 : ℚ)⌋ = 200 := by
  have h : ((100 : Nat) : ℚ) / (1/2 : ℚ) = ((200 : ℤ) : ℚ) := by norm_num
  rw [h, Int.floor_intCast]

/-- Floor evaluation: `⌊1 / 10⌋ = 0`. -/
theorem floor_1_10 : ⌊((1 : Nat) : ℚ) / (10 : ℚ)⌋ = 0 := by
  rw [Int.floor_eq_zero_iff, Set.mem_Ico]
  exact ⟨by norm_num, by norm_num⟩

/-- `tokenAmount 100 (1/2) = 200`. -/
theorem tokenAmount_100_half : tokenAmount 100 (1/2 : ℚ) = 200 := by
  unfold tokenAmount
  rw [floor_100_half]
  rfl

/-- `tokenAmount 1 10 = 0`. -/
theorem tokenAmount_1_10 : tokenAmount 1 (10 : ℚ) = 0 := by
  unfold tokenAmount
  rw [floor_1_10]
  rfl

/-- `tokenAmount 0 r = 0` for every rate. -/
theorem tokenAmount_zero (r : ℚ) : tokenAmount 0 r = 0 := by
  simp [tokenAmount]

/-- Claim C1: with an unpaused config and an oracle sample converting to a
positive rate `r`, `mint_tokens` computes `token_amount = ⌊fiat / r⌋`;
it succeeds (minting exactly that amount) when the floor is positive and
fails with `InvalidTokenAmount` when the floor is zero — in particular for
`fiat = 0`.  (Stated under the SPL no-overflow side conditions.) -/
theorem C1_mint_conversion (cfg : StablecoinConfig) (mintKey : Nat)
    (oracle : AggregatorAccountData) (st : TokenState) (s : OracleSample)
    (r : ℚ) (fiat : Nat)
    (hp : cfg.paused = false)
    (ho : oracle.latest_confirmed_round = some s)
    (hr : s.toRate = some r) (hrpos : 0 < r)
    (hsup : st.supply + tokenAmount fiat r < U64_MOD)
    (hbal : st.balance + tokenAmount fiat r < U64_MOD) :
    tokenAmount fiat r = (⌊(fiat : ℚ) / r⌋).toNat ∧
    (0 < ⌊(fiat : ℚ) / r⌋ →
      mint_tokens cfg mintKey oracle st fiat =
        .ok (cfg, ⟨st.supply + tokenAmount fiat r,
                   st.balance + tokenAmount fiat r⟩)) ∧
    (⌊(fiat : ℚ) / r⌋ ≤ 0 →
      mint_tokens cfg mintKey oracle st fiat =
        .error (.program .InvalidTokenAmount)) := by
  refine ⟨rfl, ?_, ?_⟩
  · intro hfl
    have htok : 0 < tokenAmount fiat r := by
      unfold tokenAmount; omega
    simp [mint_tokens, ho, hp, hr, hrpos, htok, mint_to, hsup, hbal]
  · intro hfl
    have htok : ¬ 0 < tokenAmount fiat r := by
      unfold tokenAmount; omega
    simp [mint_tokens, ho, hp, hr, hrpos, htok]

/-- Witness for C1 at the claim's own examples: `fiat = 100` at rate `1/2`
(sample `5 × 10 ^ (-1)`) mints 200; `fiat = 1` at rate `10` and `fiat = 0`
fail with `InvalidTokenAmount`. -/
theorem C1_mint_conversion_witness :
    mint_tokens cfgW 2 ⟨some ⟨5, 1⟩⟩ ⟨0, 0⟩ 100 = .ok (cfgW, ⟨200, 200⟩) ∧
    mint_tokens cfgW 2 ⟨some ⟨100, 1⟩⟩ ⟨0, 0⟩ 1 =
      .error (.program .InvalidTokenAmount) ∧
    mint_tokens cfgW 2 ⟨some ⟨5, 1⟩⟩ ⟨0, 0⟩ 0 =
      .error (.program .InvalidTokenAmount) := by
  refine ⟨?_, ?_, ?_⟩
  · have h := (C1_mint_conversion cfgW 2 ⟨some ⟨5, 1⟩⟩ ⟨0, 0⟩ ⟨5, 1⟩
      (1/2) 100 rfl rfl toRate_5_1 (by norm_num)
      (by rw [tokenAmount_100_half]; norm_num [U64_MOD])
      (by rw [tokenAmount_100_half]; norm_num [U64_MOD])).2.1
      (by rw [floor_100_half]; norm_num)
    rw [tokenAmount_100_half] at h
    simpa using h
  · exact (C1_mint_conversion cfgW 2 ⟨some ⟨100, 1⟩⟩ ⟨0, 0⟩ ⟨100, 1⟩
      10 1 rfl rfl toRate_100_1 (by norm_num)
      (by rw [tokenAmount_1_10]; norm_num [U64_MOD])
      (by rw [tokenAmount_1_10]; norm_num [U64_MOD])).2.2
      (by rw [floor_1_10])
  · exact (C1_mint_conversion cfgW 2 ⟨some ⟨5, 1⟩⟩ ⟨0, 0⟩ ⟨5, 1⟩
      (1/2) 0 rfl rfl toRate_5_1 (by norm_num)
      (by rw [tokenAmount_zero]; norm_num [U64_MOD])
      (by rw [tokenAmount_zero]; norm_num [U64_MOD])).2.2
      (by simp)

/-- Claim C3: an oracle with no confirmed round makes every `mint_tokens`
call fail with `OracleNotInitialized`, whatever the fiat amount (and
whatever the rest of the state: the Anchor account constraint is checked
before the handler body). -/
theorem C3_oracle_not_initialized (cfg : StablecoinConfig) (mintKey : Nat)
    (oracle : AggregatorAccountData) (st : TokenState) (fiat : Nat)
    (h : oracle.latest_confirmed_round = none) :
    mint_tokens cfg mintKey oracle st fiat =
      .error (.program .OracleNotInitialized) := by
  simp [mint_tokens, h]

/-- Witness for C3 at a concrete uninitialized oracle. -/
theorem C3_oracle_not_initialized_witness :
    mint_tokens cfgW 2 ⟨none⟩ ⟨0, 0⟩ 100 =
      .error (.program .OracleNotInitialized) :=
  C3_oracle_not_initialized cfgW 2 ⟨none⟩ ⟨0, 0⟩ 100 rfl

/-- Claim C6: a caller different from the stored authority gets
`Unauthorized` from both `pause` and `unpause`; the failed transaction
mutates nothing (an `error` result leaves every account as it was). -/
theorem C6_unauthorized (caller : Nat) (cfg : StablecoinConfig)
    (h : caller ≠ cfg.authority) :
    pause caller cfg = .error (.program .Unauthorized) ∧
    unpause caller cfg = .error (.program .Unauthorized) := by
  simp [pause, unpause, h]

/-- Witness for C6: caller 2 against authority 1. -/
theorem C6_unauthorized_witness :
    pause 2 cfgW = .error (.program .Unauthorized) ∧
    unpause 2 cfgW = .error (.program .Unauthorized) :=
  C6_unauthorized 2 cfgW (by decide)

/-- `cfgW` starts unpaused. -/
theorem cfgW_paused : cfgW.paused = false := rfl

/-- Counterexample to claim C2 as stated: with `paused = true` and an
oracle that has no confirmed round, `mint_tokens` fails with
`OracleNotInitialized`, not `ProgramPaused` — the Anchor account
constraint on the oracle is evaluated before the handler's pause check, so
the error is not `ProgramPaused` for every oracle state. -/
theorem C2_counterexample :
    mint_tokens { cfgW with paused := true } 2 ⟨none⟩ ⟨0, 0⟩ 5 =
      .error (.program .OracleNotInitialized) ∧
    TxError.program .OracleNotInitialized ≠
      TxError.program .ProgramPaused :=
  ⟨rfl, by decide⟩

/-- Claim C2 (amended): while `paused = true`, every `mint_tokens` call
whose oracle passes account validation (has a confirmed round) fails with
`ProgramPaused`, and with an uninitialized oracle the call still fails,
with `OracleNotInitialized`; every `redeem_tokens` call fails with
`ProgramPaused`; `pause` and `unpause` behave independently of the current
flag value. -/
theorem C2_paused_blocks (cfg : StablecoinConfig) (hp : cfg.paused = true) :
    (∀ (mintKey : Nat) (oracle : AggregatorAccountData) (sample : OracleSample)
        (st : TokenState) (fiat : Nat),
      oracle.latest_confirmed_round = some sample →
      mint_tokens cfg mintKey oracle st fiat =
        .error (.program .ProgramPaused)) ∧
    (∀ (mintKey : Nat) (oracle : AggregatorAccountData) (st : TokenState)
        (fiat : Nat),
      oracle.latest_confirmed_round = none →
      mint_tokens cfg mintKey oracle st fiat =
        .error (.program .OracleNotInitialized)) ∧
    (∀ (mintKey : Nat) (st : TokenState) (amt : Nat),
      redeem_tokens cfg mintKey st amt = .error (.program .ProgramPaused)) ∧
    (∀ (caller : Nat) (b : Bool),
      pause caller { cfg with paused := b } =
        (if caller = cfg.authority then .ok { cfg with paused := true }
         else .error (.program .Unauthorized)) ∧
      unpause caller { cfg with paused := b } =
        (if caller = cfg.authority then .ok { cfg with paused := false }
         else .error (.program .Unauthorized))) := by
  refine ⟨?_, ?_, ?_, ?_⟩
  · intro mintKey oracle sample st fiat ho
    simp [mint_tokens, ho, hp]
  · intro mintKey oracle st fiat ho
    simp [mint_tokens, ho]
  · intro mintKey st amt
    simp [redeem_tokens, hp]
  · intro caller b
    by_cases hc : caller = cfg.authority <;> simp [pause, unpause, hc]

/-- Witness for the amended C2 at a concrete paused config. -/
theorem C2_paused_blocks_witness :
    mint_tokens { cfgW with paused := true } 2 ⟨some ⟨5, 1⟩⟩ ⟨0, 0⟩ 100 =
      .error (.program .ProgramPaused) ∧
    redeem_tokens { cfgW with paused := true } 2 ⟨0, 0⟩ 7 =
      .error (.program .ProgramPaused) :=
  ⟨(C2_paused_blocks { cfgW with paused := true } rfl).1 2
      ⟨some ⟨5, 1⟩⟩ ⟨5, 1⟩ ⟨0, 0⟩ 100 rfl,
   (C2_paused_blocks { cfgW with paused := true } rfl).2.2.1 2 ⟨0, 0⟩ 7⟩

/-- Claim C4: with an unpaused config and a confirmed oracle round, a
sample converting to a non-positive rate makes `mint_tokens` fail with
`InvalidOraclePrice`, and a sample that cannot be represented as a rate at
all makes it fail with `InvalidOracleData`. -/
theorem C4_invalid_oracle (cfg : StablecoinConfig) (mintKey : Nat)
    (oracle : AggregatorAccountData) (st : TokenState) (s : OracleSample)
    (fiat : Nat)
    (hp : cfg.paused = false)
    (ho : oracle.latest_confirmed_round = some s) :
    (∀ r : ℚ, s.toRate = some r → r ≤ 0 →
      mint_tokens cfg mintKey oracle st fiat =
        .error (.program .InvalidOraclePrice)) ∧
    (s.toRate = none →
      mint_tokens cfg mintKey oracle st fiat =
        .error (.program .InvalidOracleData)) := by
  constructor
  · intro r hr hle
    simp [mint_tokens, ho, hp, hr, not_lt.mpr hle]
  · intro hr
    simp [mint_tokens, ho, hp, hr]

/-- Witness for C4: a zero sample gives `InvalidOraclePrice`; an
unrepresentable sample (scale 29) gives `InvalidOracleData`. -/
theorem C4_invalid_oracle_witness :
    mint_tokens cfgW 2 ⟨some ⟨0, 0⟩⟩ ⟨0, 0⟩ 100 =
      .error (.program .InvalidOraclePrice) ∧
    mint_tokens cfgW 2 ⟨some ⟨1, 29⟩⟩ ⟨0, 0⟩ 100 =
      .error (.program .InvalidOracleData) :=
  ⟨(C4_invalid_oracle cfgW 2 ⟨some ⟨0, 0⟩⟩ ⟨0, 0⟩ ⟨0, 0⟩ 100 rfl rfl).1
      0 toRate_0_0 le_rfl,
   (C4_invalid_oracle cfgW 2 ⟨some ⟨1, 29⟩⟩ ⟨0, 0⟩ ⟨1, 29⟩ 100 rfl rfl).2
      toRate_1_29⟩

/-- Claim C5: `pause` and `unpause` are idempotent on the flag — a second
`pause` right after a successful one succeeds and leaves the same
`Paused` config, and likewise for `unpause` and `Active`. -/
theorem C5_pause_unpause_idempotent (caller : Nat)
    (cfg cfg1 : StablecoinConfig) :
    (pause caller cfg = .ok cfg1 →
      pause caller cfg1 = .ok cfg1 ∧ cfg1.paused = true) ∧
    (unpause caller cfg = .ok cfg1 →
      unpause caller cfg1 = .ok cfg1 ∧ cfg1.paused = false) := by
  constructor
  · intro h
    by_cases hc : caller = cfg.authority
    · simp only [pause, if_pos hc, Except.ok.injEq] at h
      subst h
      simp [pause, hc]
    · simp [pause, hc] at h
  · intro h
    by_cases hc : caller = cfg.authority
    · simp only [unpause, if_pos hc, Except.ok.injEq] at h
      subst h
      simp [unpause, hc]
    · simp [unpause, hc] at h

/-- Witness for C5: pausing twice from `cfgW`, and unpausing twice from
the paused variant. -/
theorem C5_pause_unpause_idempotent_witness :
    (pause 1 { cfgW with paused := true } = .ok { cfgW with paused := true } ∧
      ({ cfgW with paused := true } : StablecoinConfig).paused = true) ∧
    (unpause 1 cfgW = .ok cfgW ∧ cfgW.paused = false) :=
  ⟨(C5_pause_unpause_idempotent 1 cfgW { cfgW with paused := true }).1 rfl,
   (C5_pause_unpause_idempotent 1 { cfgW with paused := true } cfgW).2 rfl⟩

/-- Claim C7: `initialize` writes a config whose authority, mint and four
metadata strings are exactly the supplied arguments, with `paused = false`
(initial state `Active`). -/
theorem C7_initialize_fields (authority mint : Nat)
    (name symbol icon_uri target_currency : String) :
    (initializeConfig authority mint name symbol icon_uri
        target_currency).authority = authority ∧
    (initializeConfig authority mint name symbol icon_uri
        target_currency).mint = mint ∧
    (initializeConfig authority mint name symbol icon_uri
        target_currency).name = name ∧
    (initializeConfig authority mint name symbol icon_uri
        target_currency).symbol = symbol ∧
    (initializeConfig authority mint name symbol icon_uri
        target_currency).icon_uri = icon_uri ∧
    (initializeConfig authority mint name symbol icon_uri
        target_currency).target_currency = target_currency ∧
    (initializeConfig authority mint name symbol icon_uri
        target_currency).paused = false :=
  ⟨rfl, rfl, rfl, rfl, rfl, rfl, rfl⟩

/-- Claim C8: a successful `mint_tokens` raises the caller's token balance
(and the mint supply) by exactly the computed `token_amount`, and a
subsequent `redeem_tokens (token_amount)` from the same account at any
mint key brings the token state back to exactly where it started — a net
zero balance change. -/
theorem C8_round_trip (cfg : StablecoinConfig) (mintKey mintKey2 : Nat)
    (oracle : AggregatorAccountData) (st : TokenState) (s : OracleSample)
    (r : ℚ) (fiat : Nat)
    (hp : cfg.paused = false)
    (ho : oracle.latest_confirmed_round = some s)
    (hr : s.toRate = some r) (hrpos : 0 < r)
    (htok : 0 < tokenAmount fiat r)
    (hsup : st.supply + tokenAmount fiat r < U64_MOD)
    (hbal : st.balance + tokenAmount fiat r < U64_MOD) :
    mint_tokens cfg mintKey oracle st fiat =
      .ok (cfg, ⟨st.supply + tokenAmount fiat r,
                 st.balance + tokenAmount fiat r⟩) ∧
    redeem_tokens cfg mintKey2
      ⟨st.supply + tokenAmount fiat r, st.balance + tokenAmount fiat r⟩
      (tokenAmount fiat r) = .ok (cfg, st) := by
  constructor
  · simp [mint_tokens, ho, hp, hr, hrpos, htok, mint_to, hsup, hbal]
  · simp [redeem_tokens, hp, burn, Nat.le_add_left]

/-- Witness for C8: minting 100 fiat at rate `1/2` over token state
`(supply 1000, balance 50)` yields `(1200, 250)`; redeeming the minted 200
returns to `(1000, 50)`. -/
theorem C8_round_trip_witness :
    mint_tokens cfgW 2 ⟨some ⟨5, 1⟩⟩ ⟨1000, 50⟩ 100 =
      .ok (cfgW, ⟨1200, 250⟩) ∧
    redeem_tokens cfgW 2 ⟨1200, 250⟩ 200 = .ok (cfgW, ⟨1000, 50⟩) := by
  have h := C8_round_trip cfgW 2 2 ⟨some ⟨5, 1⟩⟩ ⟨1000, 50⟩ ⟨5, 1⟩
    (1/2) 100 rfl rfl toRate_5_1 (by norm_num)
    (by rw [tokenAmount_100_half]; norm_num)
    (by rw [tokenAmount_100_half]; norm_num [U64_MOD])
    (by rw [tokenAmount_100_half]; norm_num [U64_MOD])
  rw [tokenAmount_100_half] at h
  simpa using h

/-- Claim C9: no instruction ever changes the config's authority, mint or
metadata: `mint_tokens` and `redeem_tokens` return the config exactly as
given, and `pause`/`unpause` change at most the `paused` field. -/
theorem C9_config_immutable (cfg : StablecoinConfig) :
    (∀ (mintKey : Nat) (oracle : AggregatorAccountData) (st : TokenState)
        (fiat : Nat) (out : StablecoinConfig × TokenState),
      mint_tokens cfg mintKey oracle st fiat = .ok out → out.1 = cfg) ∧
    (∀ (mintKey : Nat) (st : TokenState) (amt : Nat)
        (out : StablecoinConfig × TokenState),
      redeem_tokens cfg mintKey st amt = .ok out → out.1 = cfg) ∧
    (∀ (caller : Nat) (cfg1 : StablecoinConfig),
      pause caller cfg = .ok cfg1 →
      cfg1.authority = cfg.authority ∧ cfg1.mint = cfg.mint ∧
      cfg1.name = cfg.name ∧ cfg1.symbol = cfg.symbol ∧
      cfg1.icon_uri = cfg.icon_uri ∧
      cfg1.target_currency = cfg.target_currency ∧ cfg1.paused = true) ∧
    (∀ (caller : Nat) (cfg1 : StablecoinConfig),
      unpause caller cfg = .ok cfg1 →
      cfg1.authority = cfg.authority ∧ cfg1.mint = cfg.mint ∧
      cfg1.name = cfg.name ∧ cfg1.symbol = cfg.symbol ∧
      cfg1.icon_uri = cfg.icon_uri ∧
      cfg1.target_currency = cfg.target_currency ∧ cfg1.paused = false) := by
  refine ⟨?_, ?_, ?_, ?_⟩
  · intro mintKey oracle st fiat out h
    unfold mint_tokens at h
    dsimp only at h
    repeat' split at h
    all_goals first
      | (simp only [Except.ok.injEq] at h; subst h; rfl)
      | simp_all
  · intro mintKey st amt out h
    unfold redeem_tokens at h
    repeat' split at h
    all_goals first
      | (simp only [Except.ok.injEq] at h; subst h; rfl)
      | simp_all
  · intro caller cfg1 h
    by_cases hc : caller = cfg.authority
    · simp only [pause, if_pos hc, Except.ok.injEq] at h
      subst h
      exact ⟨rfl, rfl, rfl, rfl, rfl, rfl, rfl⟩
    · simp [pause, hc] at h
  · intro caller cfg1 h
    by_cases hc : caller = cfg.authority
    · simp only [unpause, if_pos hc, Except.ok.injEq] at h
      subst h
      exact ⟨rfl, rfl, rfl, rfl, rfl, rfl, rfl⟩
    · simp [unpause, hc] at h

/-- Witness for C9: a successful concrete mint and a successful concrete
pause, with the field preservation read off. -/
theorem C9_config_immutable_witness :
    ((cfgW, (⟨200, 200⟩ : TokenState)) :
        StablecoinConfig × TokenState).1 = cfgW ∧
    ({ cfgW with paused := true } : StablecoinConfig).authority =
      cfgW.authority := by
  constructor
  · exact (C9_config_immutable cfgW).2.1 2 ⟨250, 250⟩ 50 (cfgW, ⟨200, 200⟩)
      (by simp [redeem_tokens, cfgW_paused, burn])
  · exact ((C9_config_immutable cfgW).2.2.1 1 { cfgW with paused := true }
      rfl).1

/-- Claim C10: neither `mint_tokens` nor `redeem_tokens` compares the
passed mint account to `StablecoinConfig.mint`: their outcome is
independent of the mint key, and both succeed on a concrete state where
the passed mint key (99) differs from the config's recorded mint (2) —
the pause flag of a config does not gate supply changes on its own
recorded mint only. -/
theorem C10_mint_key_unchecked :
    (∀ (cfg : StablecoinConfig) (mk1 mk2 : Nat)
        (oracle : AggregatorAccountData) (st : TokenState) (fiat : Nat),
      mint_tokens cfg mk1 oracle st fiat =
        mint_tokens cfg mk2 oracle st fiat) ∧
    (∀ (cfg : StablecoinConfig) (mk1 mk2 : Nat) (st : TokenState)
        (amt : Nat),
      redeem_tokens cfg mk1 st amt = redeem_tokens cfg mk2 st amt) ∧
    (cfgW.mint ≠ 99 ∧
      mint_tokens cfgW 99 ⟨some ⟨5, 1⟩⟩ ⟨0, 0⟩ 100 =
        .ok (cfgW, ⟨200, 200⟩) ∧
      redeem_tokens cfgW 99 ⟨200, 200⟩ 50 = .ok (cfgW, ⟨150, 150⟩)) := by
  refine ⟨fun _ _ _ _ _ _ => rfl, fun _ _ _ _ _ => rfl, by decide, ?_, ?_⟩
  · have hpos : (0 : ℚ) < 1/2 := by norm_num
    have h200 : tokenAmount 100 ((2 : ℚ)⁻¹) = 200 := by
      rw [show ((2 : ℚ)⁻¹) = 1/2 by norm_num]
      exact tokenAmount_100_half
    simp [mint_tokens, cfgW_paused, toRate_5_1, hpos, tokenAmount_100_half,
      h200, mint_to, U64_MOD]
  · simp [redeem_tokens, cfgW_paused, burn]

end Stablecoin
